import Mathlib

/-!
Shallow embedding of the geometry, screenshot, frame and long-request logic of
the `applitools/eyes.selenium.python` SDK, together with theorems settling the
frozen specification claims about it.

Numeric conventions: Python integers are modelled as `Int`; Python numbers that
may be fractional (`Point` coordinates fed to `round`) are modelled as `Rat`.
`int(round(x))` of Python 2 rounds half away from zero; it is modelled by
`pyRound`.
-/

/-- Python 2 `int(round(x))`: round half away from zero. -/
def pyRound (q : ℚ) : ℤ :=
  if q < 0 then -⌊-q + 1/2⌋ else ⌊q + 1/2⌋

/-! ## `applitools/geometry.py`: `Point`

The Python object stores whatever `__init__` / `move_to` / `offset` assigned to
`self.x` / `self.y`; the constructor rounds, the mutators assign raw values, so
the stored coordinates may be fractional.  A `Point` is therefore a pair of
rationals, and each Python method is a function producing the `Point` holding
the coordinates the mutated object would hold. -/

structure Point where
  x : ℚ
  y : ℚ
  deriving DecidableEq

/-- `Point.__init__`: both coordinates go through `int(round(.))`. -/
def Point.make (x y : ℚ) : Point :=
  ⟨(pyRound x : ℤ), (pyRound y : ℤ)⟩

/-- `Point.__add__`: returns `Point(self.x + other.x, self.y + other.y)` (the
result passes through the rounding constructor). -/
def Point.add (p q : Point) : Point :=
  Point.make (p.x + q.x) (p.y + q.y)

/-- `Point.__sub__`. -/
def Point.sub (p q : Point) : Point :=
  Point.make (p.x - q.x) (p.y - q.y)

/-- `Point.__mul__` by a scalar. -/
def Point.mul (p : Point) (scalar : ℚ) : Point :=
  Point.make (p.x * scalar) (p.y * scalar)

/-- `Point.clone`: returns `Point(self.x, self.y)`, i.e. it passes through the
rounding constructor. -/
def Point.clone (p : Point) : Point :=
  Point.make p.x p.y

/-- `Point.move_to`: assigns `self.x = x; self.y = y` directly, with no
rounding. -/
def Point.move_to (p : Point) (x y : ℚ) : Point :=
  { p with x := x, y := y }

/-- `Point.offset`: assigns `self.x = self.x + dx; self.y = self.y + dy`
directly, with no rounding. -/
def Point.offset (p : Point) (dx dy : ℚ) : Point :=
  { p with x := p.x + dx, y := p.y + dy }

/-- `Point.rotate`: computes `(c*x - s*y, s*x + c*y)` with `s = sin rad`,
`c = cos rad` and returns them through the rounding constructor.  The
transcendental `sin`/`cos` values are abstracted as rational parameters `s`,
`c`; the claims about `rotate` concern only the constructor's rounding, which
is independent of the actual values. -/
def Point.rotate (p : Point) (s c : ℚ) : Point :=
  Point.make (c * p.x - s * p.y) (s * p.x + c * p.y)

/-- `Point.rotate_about`: clones, offsets by `-p`, calls `rotate` (whose result
the source discards — the returned rotation is never assigned), then offsets
back by `p` and returns the clone. -/
def Point.rotate_about (p q : Point) (s c : ℚ) : Point :=
  let result := p.clone
  let result := result.offset (-q.x) (-q.y)
  let _discarded := result.rotate s c
  let result := result.offset q.x q.y
  result

/-- The coordinates of `p` are (mathematical) integers. -/
def Point.hasIntCoords (p : Point) : Prop :=
  p.x.den = 1 ∧ p.y.den = 1

instance (p : Point) : Decidable p.hasIntCoords := by
  unfold Point.hasIntCoords; infer_instance

/-! ## `applitools/geometry.py`: `Region`

`Region.__init__` rounds its four arguments with `int(round(.))`; every value
flowing into the constructor in the code modelled here is already an integer,
so the fields are plain `Int`s.  The mutating methods (`intersect`,
`make_empty`) are modelled as functions returning the mutated value. -/

structure Region where
  left : ℤ
  top : ℤ
  width : ℤ
  height : ℤ
  deriving DecidableEq

/-- `Region.right` property: `left + width`. -/
def Region.right (r : Region) : ℤ := r.left + r.width

/-- `Region.bottom` property: `top + height`. -/
def Region.bottom (r : Region) : ℤ := r.top + r.height

/-- `Region.make_empty`: sets all four fields to 0. -/
def Region.make_empty : Region := ⟨0, 0, 0, 0⟩

/-- `Region.is_empty`: the chained Python comparison
`self.left == self.top == self.width == self.height == 0`. -/
def Region.is_empty (r : Region) : Bool :=
  decide (r.left = r.top ∧ r.top = r.width ∧ r.width = r.height ∧ r.height = 0)

/-- `Region.overlaps`: chained comparisons
`(self.left <= other.left <= self.right or other.left <= self.left <= other.right)
 and (same for top/bottom)`. -/
def Region.overlaps (r other : Region) : Bool :=
  decide (((r.left ≤ other.left ∧ other.left ≤ r.right) ∨
            (other.left ≤ r.left ∧ r.left ≤ other.right)) ∧
          ((r.top ≤ other.top ∧ other.top ≤ r.bottom) ∨
            (other.top ≤ r.top ∧ r.top ≤ other.bottom)))

/-- `Region.intersect`: if the regions do not overlap the receiver is made
empty, otherwise its fields become the overlap box.  Modelled as the value the
receiver holds after the call. -/
def Region.intersect (r other : Region) : Region :=
  if ¬ r.overlaps other then Region.make_empty
  else
    let intersectionLeft := if r.left ≥ other.left then r.left else other.left
    let intersectionTop := if r.top ≥ other.top then r.top else other.top
    let intersectionRight := if r.right ≤ other.right then r.right else other.right
    let intersectionBottom := if r.bottom ≤ other.bottom then r.bottom else other.bottom
    ⟨intersectionLeft, intersectionTop,
      intersectionRight - intersectionLeft, intersectionBottom - intersectionTop⟩

/-- Membership of the integer point `(x, y)` in the half-open box
`[left, left+width) × [top, top+height)` described by a region. -/
def Region.memPt (r : Region) (x y : ℤ) : Bool :=
  decide (r.left ≤ x ∧ x < r.left + r.width ∧ r.top ≤ y ∧ y < r.top + r.height)

/-- Inner `while current_left < self.width` loop of `Region.get_sub_regions`.
The Python loop advances `current_left` by `max_sub_region_size["width"]` each
iteration (and diverges if that width is not positive); the extra `fuel`
argument totalises it, and `(w - currentLeft).toNat` fuel is sufficient
whenever the tile width is positive. -/
def Region.subRegionsRow : ℕ → ℤ → ℤ → ℤ → ℤ → ℤ → List Region
  | 0, _, _, _, _, _ => []
  | fuel + 1, currentLeft, tileW, w, currentTop, currentBottom =>
    if currentLeft < w then
      let currentRight := min (currentLeft + tileW) w
      ⟨currentLeft, currentTop, currentRight - currentLeft, currentBottom - currentTop⟩ ::
        Region.subRegionsRow fuel (currentLeft + tileW) tileW w currentTop currentBottom
    else []

/-- Outer `while current_top < self.height` loop of `Region.get_sub_regions`,
fuelled like the inner loop. -/
def Region.subRegionsRows : ℕ → ℤ → ℤ → ℤ → ℤ → ℤ → ℤ → List Region
  | 0, _, _, _, _, _, _ => []
  | fuel + 1, currentTop, tileH, h, left, tileW, w =>
    if currentTop < h then
      let currentBottom := min (currentTop + tileH) h
      Region.subRegionsRow (w - left).toNat left tileW w currentTop currentBottom ++
        Region.subRegionsRows fuel (currentTop + tileH) tileH h left tileW w
    else []

/-- `Region.get_sub_regions(max_sub_region_size)`: tiles starting at
`(self.left, self.top)`, bounded by `self.width` / `self.height` used as
absolute right/bottom coordinates (not `self.right` / `self.bottom`). -/
def Region.get_sub_regions (r : Region) (tileW tileH : ℤ) : List Region :=
  Region.subRegionsRows (r.height - r.top).toNat r.top tileH r.height r.left tileW r.width

/-! ## Counting lemmas for `get_sub_regions` -/

/-- Each point of the horizontal strip `[currentLeft, w) × [t, b)` lies in
exactly one region produced by the inner loop, provided the tile width is
positive and the fuel covers the remaining distance. -/
lemma countP_subRegionsRow (x y : ℤ) :
    ∀ (fuel : ℕ) (cl tw w t b : ℤ), 0 < tw → (w - cl).toNat ≤ fuel →
      (Region.subRegionsRow fuel cl tw w t b).countP (fun p => p.memPt x y) =
        if cl ≤ x ∧ x < w ∧ t ≤ y ∧ y < b then 1 else 0 := by
  intro fuel
  induction fuel with
  | zero =>
    intro cl tw w t b htw hfuel
    simp only [Region.subRegionsRow, List.countP_nil]
    split_ifs <;> omega
  | succ n ih =>
    intro cl tw w t b htw hfuel
    simp only [Region.subRegionsRow]
    by_cases hlt : cl < w
    · rw [if_pos hlt]
      simp only [List.countP_cons, ih (cl + tw) tw w t b htw (by omega)]
      simp only [Region.memPt, decide_eq_true_eq]
      split_ifs <;> omega
    · rw [if_neg hlt]
      simp only [List.countP_nil]
      split_ifs <;> omega

/-- Each point of the rectangle `[left, w) × [currentTop, h)` lies in exactly
one region produced by the nested loops, for positive tile sizes and
sufficient fuel. -/
lemma countP_subRegionsRows (x y : ℤ) :
    ∀ (fuel : ℕ) (ct th h l tw w : ℤ), 0 < tw → 0 < th → (h - ct).toNat ≤ fuel →
      (Region.subRegionsRows fuel ct th h l tw w).countP (fun p => p.memPt x y) =
        if l ≤ x ∧ x < w ∧ ct ≤ y ∧ y < h then 1 else 0 := by
  intro fuel
  induction fuel with
  | zero =>
    intro ct th h l tw w htw hth hfuel
    simp only [Region.subRegionsRows, List.countP_nil]
    split_ifs <;> omega
  | succ n ih =>
    intro ct th h l tw w htw hth hfuel
    simp only [Region.subRegionsRows]
    by_cases hlt : ct < h
    · rw [if_pos hlt]
      simp only [List.countP_append]
      rw [countP_subRegionsRow x y (w - l).toNat l tw w ct (min (ct + th) h) htw le_rfl,
        ih (ct + th) th h l tw w htw hth (by omega)]
      split_ifs <;> omega
    · rw [if_neg hlt]
      simp only [List.countP_nil]
      split_ifs <;> omega

/-- Every region produced by the inner loop has positive width bounded by
`tw` and height exactly `b - t`. -/
lemma sizes_subRegionsRow :
    ∀ (fuel : ℕ) (cl tw w t b : ℤ), 0 < tw →
      ∀ p ∈ Region.subRegionsRow fuel cl tw w t b,
        0 < p.width ∧ p.width ≤ tw ∧ p.height = b - t := by
  intro fuel
  induction fuel with
  | zero => intro cl tw w t b htw p hp; simp [Region.subRegionsRow] at hp
  | succ n ih =>
    intro cl tw w t b htw p hp
    simp only [Region.subRegionsRow] at hp
    by_cases hlt : cl < w
    · rw [if_pos hlt] at hp
      rcases List.mem_cons.mp hp with h | h
      · subst h
        exact ⟨by show 0 < min (cl + tw) w - cl; omega,
          by show min (cl + tw) w - cl ≤ tw; omega, rfl⟩
      · exact ih (cl + tw) tw w t b htw p h
    · rw [if_neg hlt] at hp
      simp at hp

/-- Every region produced by the nested loops has positive width/height
bounded by the tile size. -/
lemma sizes_subRegionsRows :
    ∀ (fuel : ℕ) (ct th h l tw w : ℤ), 0 < tw → 0 < th →
      ∀ p ∈ Region.subRegionsRows fuel ct th h l tw w,
        0 < p.width ∧ p.width ≤ tw ∧ 0 < p.height ∧ p.height ≤ th := by
  intro fuel
  induction fuel with
  | zero => intro ct th h l tw w htw hth p hp; simp [Region.subRegionsRows] at hp
  | succ n ih =>
    intro ct th h l tw w htw hth p hp
    simp only [Region.subRegionsRows] at hp
    by_cases hlt : ct < h
    · rw [if_pos hlt] at hp
      rcases List.mem_append.mp hp with h1 | h1
      · obtain ⟨hw, hwle, hh⟩ :=
          sizes_subRegionsRow (w - l).toNat l tw w ct (min (ct + th) h) htw p h1
        refine ⟨hw, hwle, ?_, ?_⟩ <;> omega
      · exact ih (ct + th) th h l tw w htw hth p h1
    · rw [if_neg hlt] at hp
      simp at hp

/-! ## Claim C1: tiling of `get_sub_regions` -/

/-- C1 (counterexample): the claim fails for a region whose origin is not
`(0, 0)`.  For `R = Region(5, 0, 10, 10)` and tile size `10 × 10`, the point
`(12, 0)` lies in `R` but in none of the returned sub-regions: the loops bound
the tiling by `R.width` / `R.height` used as absolute coordinates, so the
tiles stop at `x = 10` while `R` extends to `x = 15`. -/
theorem get_sub_regions_gap_at_nonzero_left :
    Region.memPt ⟨5, 0, 10, 10⟩ 12 0 = true ∧
      (Region.get_sub_regions ⟨5, 0, 10, 10⟩ 10 10).countP (fun p => p.memPt 12 0) = 0 := by
  decide

/-- C1 (amended): for every region located at the origin (`left = top = 0`)
with non-negative width and height, and every tile size with positive width
and height, `get_sub_regions` covers the region exactly once — every point of
the region lies in exactly one returned sub-region (no gaps, no overlaps), no
point outside the region lies in any sub-region, and every sub-region has
positive width/height bounded by the tile size. -/
theorem get_sub_regions_exact_cover_from_origin (r : Region) (tw th : ℤ)
    (hleft : r.left = 0) (htop : r.top = 0)
    (hw : 0 ≤ r.width) (hh : 0 ≤ r.height) (htw : 0 < tw) (hth : 0 < th) :
    (∀ x y : ℤ, (r.get_sub_regions tw th).countP (fun p => p.memPt x y) =
        if r.memPt x y then 1 else 0) ∧
      ∀ p ∈ r.get_sub_regions tw th,
        0 < p.width ∧ p.width ≤ tw ∧ 0 < p.height ∧ p.height ≤ th := by
  constructor
  · intro x y
    rw [Region.get_sub_regions,
      countP_subRegionsRows x y (r.height - r.top).toNat r.top th r.height r.left tw r.width
        htw hth le_rfl]
    simp only [Region.memPt, decide_eq_true_eq]
    split_ifs <;> omega
  · intro p hp
    exact sizes_subRegionsRows (r.height - r.top).toNat r.top th r.height r.left tw r.width
      htw hth p hp

/-- C1 (witness): the amended theorem applied to `Region(0, 0, 5, 3)` with tile
size `2 × 2`, evaluated at the point `(4, 2)`. -/
theorem get_sub_regions_exact_cover_witness :
    (Region.get_sub_regions ⟨0, 0, 5, 3⟩ 2 2).countP (fun p => p.memPt 4 2) =
      if Region.memPt ⟨0, 0, 5, 3⟩ 4 2 then 1 else 0 :=
  (get_sub_regions_exact_cover_from_origin ⟨0, 0, 5, 3⟩ 2 2 rfl rfl (by decide) (by decide)
    (by decide) (by decide)).1 4 2

/-! ## Claim C5: `intersect` versus `overlaps` -/

/-- `overlaps` is symmetric. -/
lemma overlaps_comm (r o : Region) : r.overlaps o = o.overlaps r := by
  simp only [Region.overlaps, decide_eq_decide]
  tauto

/-- C5 (counterexample): for `R = Region(0, 0, 5, 5)` and
`R2 = Region(-3, -3, 3, 3)` — both with non-negative width and height —
`R.overlaps(R2)` is true, yet the intersection is `Region(0, 0, 0, 0)`, which
`is_empty` reports as empty.  So after `R.intersect(R2)`, `R.is_empty()` does
not hold iff `R.overlaps(R2)` was false. -/
theorem intersect_empty_despite_overlap :
    ¬ (((Region.intersect ⟨0, 0, 5, 5⟩ ⟨-3, -3, 3, 3⟩).is_empty = true) ↔
        (Region.overlaps ⟨0, 0, 5, 5⟩ ⟨-3, -3, 3, 3⟩ = false)) := by
  decide

/-- C5 (amended): for regions with non-negative width and height, `intersect`
is commutative in outcome, and the result of `R.intersect(R2)` satisfies
`is_empty` iff either `R.overlaps(R2)` was false, or the overlap box
degenerates to exactly the all-zero region (its corners are
`max`-left = `max`-top = `min`-right = `min`-bottom = 0). -/
theorem intersect_comm_and_empty_iff (r o : Region)
    (hrw : 0 ≤ r.width) (hrh : 0 ≤ r.height) (how : 0 ≤ o.width) (hoh : 0 ≤ o.height) :
    r.intersect o = o.intersect r ∧
      ((r.intersect o).is_empty = true ↔
        (r.overlaps o = false ∨
          (max r.left o.left = 0 ∧ max r.top o.top = 0 ∧
            min r.right o.right = 0 ∧ min r.bottom o.bottom = 0))) := by
  constructor
  · simp only [Region.intersect, overlaps_comm r o]
    by_cases h : ¬ (o.overlaps r = true)
    · rw [if_pos h, if_pos h]
    · rw [if_neg h, if_neg h]
      simp only [Region.mk.injEq]
      refine ⟨?_, ?_, ?_, ?_⟩ <;> split_ifs <;> omega
  · rcases hov : r.overlaps o with _ | _
    · simp [Region.intersect, hov, Region.make_empty, Region.is_empty]
    · have hcond : ¬ ¬ (r.overlaps o = true) := by simp [hov]
      simp only [Region.intersect]
      rw [if_neg hcond]
      simp only [Region.is_empty, decide_eq_true_eq, hov, Bool.true_eq_false, false_or]
      split_ifs <;> omega

/-- C5 (witness): the amended theorem applied to the touching regions
`Region(0, 0, 5, 5)` and `Region(5, 5, 3, 3)`. -/
theorem intersect_comm_and_empty_iff_witness :
    Region.intersect ⟨0, 0, 5, 5⟩ ⟨5, 5, 3, 3⟩ = Region.intersect ⟨5, 5, 3, 3⟩ ⟨0, 0, 5, 5⟩ ∧
      ((Region.intersect ⟨0, 0, 5, 5⟩ ⟨5, 5, 3, 3⟩).is_empty = true ↔
        (Region.overlaps ⟨0, 0, 5, 5⟩ ⟨5, 5, 3, 3⟩ = false ∨
          (max (0 : ℤ) 5 = 0 ∧ max (0 : ℤ) 5 = 0 ∧
            min (Region.right ⟨0, 0, 5, 5⟩) (Region.right ⟨5, 5, 3, 3⟩) = 0 ∧
            min (Region.bottom ⟨0, 0, 5, 5⟩) (Region.bottom ⟨5, 5, 3, 3⟩) = 0))) :=
  intersect_comm_and_empty_iff ⟨0, 0, 5, 5⟩ ⟨5, 5, 3, 3⟩
    (by decide) (by decide) (by decide) (by decide)

/-! ## Claim C8: `is_empty` boundary rule -/

/-- C8: `Region.is_empty` holds iff all four of `left`, `top`, `width`,
`height` are 0; in particular `Region(0,0,0,0)` is empty and
`Region(5,5,0,0)` is not. -/
theorem is_empty_iff_all_four_zero :
    (∀ r : Region, r.is_empty = true ↔
        (r.left = 0 ∧ r.top = 0 ∧ r.width = 0 ∧ r.height = 0)) ∧
      Region.is_empty ⟨0, 0, 0, 0⟩ = true ∧ Region.is_empty ⟨5, 5, 0, 0⟩ = false := by
  refine ⟨fun r => ?_, by decide, by decide⟩
  simp only [Region.is_empty, decide_eq_true_eq]
  omega

/-! ## Claim C9: integrality of `Point` coordinates -/

/-- C9 (counterexample): `move_to` assigns its arguments without rounding, so
`Point(0, 0).move_to(1/2, 0)` leaves a non-integer `x` coordinate. -/
theorem move_to_breaks_integer_invariant :
    ¬ ((Point.make 0 0).move_to (1/2) 0).hasIntCoords := by
  intro h
  have hx := h.1
  rw [Rat.den_eq_one_iff] at hx
  have h1 : (2 : ℚ) * ((Point.make 0 0).move_to (1/2) 0).x = 1 := by
    show (2 : ℚ) * (1/2) = 1
    norm_num
  rw [← hx] at h1
  have h2 : 2 * ((Point.make 0 0).move_to (1/2) 0).x.num = 1 := by exact_mod_cast h1
  omega

/-- Sum of two rationals with denominator 1 has denominator 1. -/
lemma den_one_add (a b : ℚ) (ha : a.den = 1) (hb : b.den = 1) : (a + b).den = 1 := by
  rw [Rat.den_eq_one_iff] at ha hb
  have h : a + b = ((a.num + b.num : ℤ) : ℚ) := by
    push_cast
    rw [ha, hb]
  rw [h, Rat.den_intCast]

/-- C9 (amended): the constructor and the operations that return through it
(`+`, `-`, `*` by a scalar, `clone`, `rotate`) always produce integer
coordinates, for arbitrary (even fractional) inputs; `rotate_about` preserves
integer coordinates when both points have them (the rotation it computes is
discarded by the source, so only the two offsets act); `move_to` and `offset`
assign raw values and guarantee integer coordinates only when their numeric
arguments are integers. -/
theorem point_ops_integer_coords (p q : Point) (a b k s c : ℚ) (m n : ℤ) :
    (Point.make a b).hasIntCoords ∧
      (p.add q).hasIntCoords ∧
      (p.sub q).hasIntCoords ∧
      (p.mul k).hasIntCoords ∧
      p.clone.hasIntCoords ∧
      (p.rotate s c).hasIntCoords ∧
      (p.hasIntCoords → q.hasIntCoords → (p.rotate_about q s c).hasIntCoords) ∧
      (p.move_to (m : ℚ) (n : ℚ)).hasIntCoords ∧
      (p.hasIntCoords → (p.offset (m : ℚ) (n : ℚ)).hasIntCoords) := by
  have hmk : ∀ u v : ℚ, (Point.make u v).hasIntCoords := by
    intro u v
    exact ⟨Rat.den_intCast _, Rat.den_intCast _⟩
  refine ⟨hmk a b, hmk _ _, hmk _ _, hmk _ _, hmk _ _, hmk _ _, ?_, ?_, ?_⟩
  · intro hp hq
    have : (p.rotate_about q s c).x = p.clone.x + -q.x + q.x ∧
        (p.rotate_about q s c).y = p.clone.y + -q.y + q.y := ⟨rfl, rfl⟩
    obtain ⟨hcx, hcy⟩ := hmk p.x p.y
    refine ⟨?_, ?_⟩
    · rw [this.1]
      exact den_one_add _ _ (den_one_add _ _ hcx (by rw [Rat.den_neg_eq_den]; exact hq.1))
        hq.1
    · rw [this.2]
      exact den_one_add _ _ (den_one_add _ _ hcy (by rw [Rat.den_neg_eq_den]; exact hq.2))
        hq.2
  · exact ⟨Rat.den_intCast _, Rat.den_intCast _⟩
  · intro hp
    exact ⟨den_one_add _ _ hp.1 (Rat.den_intCast _), den_one_add _ _ hp.2 (Rat.den_intCast _)⟩

/-- C9 (witness): the amended theorem at concrete points and scalars. -/
theorem point_ops_integer_coords_witness :
    ((Point.make 3 4).rotate_about (Point.make 1 2) (1/2) (1/2)).hasIntCoords :=
  ((point_ops_integer_coords (Point.make 3 4) (Point.make 1 2) 0 0 0 (1/2) (1/2) 0 0).2.2.2.2.2.2.1)
    (by decide) (by decide)

/-! ## `applitools/_webdriver.py`: `EyesFrame`

`EyesFrame` carries the frame reference, its location and size, the
webdriver element id and the parent's scroll position.  References and
element ids are opaque values; they are modelled as naturals. -/

structure EyesFrame where
  reference : ℕ
  location : ℤ × ℤ
  size : ℤ × ℤ
  id_ : ℕ
  parent_scroll_position : ℤ × ℤ
  deriving DecidableEq

/-- `EyesFrame.is_same_frame_chain`: false when the lengths differ, otherwise
compares the frames' element ids pairwise (locations, sizes and references are
never inspected). -/
def is_same_frame_chain (frame_chain1 frame_chain2 : List EyesFrame) : Bool :=
  if frame_chain1.length ≠ frame_chain2.length then false
  else (frame_chain1.zip frame_chain2).all fun fg => fg.1.id_ == fg.2.id_

/-! ## Claim C7: frame chain equality -/

/-- C7: `is_same_frame_chain` holds exactly when the chains' id sequences are
equal (equal length and pairwise-equal element ids, everything else ignored);
it is reflexive, and chains of different lengths are never equal. -/
theorem is_same_frame_chain_iff_ids (c1 c2 : List EyesFrame) :
    (is_same_frame_chain c1 c2 = true ↔ c1.map EyesFrame.id_ = c2.map EyesFrame.id_) ∧
      is_same_frame_chain c1 c1 = true ∧
      (c1.length ≠ c2.length → is_same_frame_chain c1 c2 = false) := by
  have key : ∀ a b : List EyesFrame,
      (is_same_frame_chain a b = true ↔ a.map EyesFrame.id_ = b.map EyesFrame.id_) := by
    intro a
    induction a with
    | nil =>
      intro b
      cases b with
      | nil => simp [is_same_frame_chain]
      | cons x xs => simp [is_same_frame_chain]
    | cons x xs ih =>
      intro b
      cases b with
      | nil => simp [is_same_frame_chain]
      | cons y ys =>
        have step : is_same_frame_chain (x :: xs) (y :: ys) =
            ((x.id_ == y.id_) && is_same_frame_chain xs ys) := by
          simp only [is_same_frame_chain, List.length_cons, List.zip_cons_cons, List.all_cons,
            ne_eq, Nat.succ_ne_succ]
          by_cases hlen : xs.length = ys.length
          · simp [hlen]
          · simp [hlen]
        rw [step]
        simp only [List.map_cons, List.cons.injEq, Bool.and_eq_true, beq_iff_eq, ih ys]
  refine ⟨key c1 c2, ?_, ?_⟩
  · exact (key c1 c1).mpr rfl
  · intro hne
    cases h : is_same_frame_chain c1 c2 with
    | false => rfl
    | true =>
      exact absurd (congrArg List.length ((key c1 c2).mp h)) (by simpa using hne)

/-- C7 (witness): the characterization applied to two concrete chains of
different lengths, whose inequality the last conjunct discharges. -/
theorem is_same_frame_chain_iff_ids_witness :
    is_same_frame_chain [⟨0, (1, 2), (3, 4), 7, (0, 0)⟩] [] = false :=
  (is_same_frame_chain_iff_ids [⟨0, (1, 2), (3, 4), 7, (0, 0)⟩] []).2.2 (by decide)

/-! ## `applitools/core/agent_connector.py`: long requests

An HTTP response is modelled by its status code, whether it carries a
`Location` header, and its body.  A test server is a script: the list of
responses it will give to successive requests.  Polling consumes the script
from the front; a poll against an exhausted script, and the error-raising
branches (`410 Gone`, unknown status), are modelled as `none`.  `time.sleep`
calls are recorded as a list of millisecond delays. -/

structure HttpResponse where
  status : ℕ
  hasLocation : Bool
  body : String
  deriving DecidableEq

/-- `LONG_REQUEST_DELAY_MS`. -/
def LONG_REQUEST_DELAY_MS : ℕ := 2000

/-- `MAX_LONG_REQUEST_DELAY_MS`. -/
def MAX_LONG_REQUEST_DELAY_MS : ℕ := 10000

/-- The delay update at the top of `_long_request_loop`:
`min(MAX, math.floor(delay * 1.5))`.  For the integer delays that occur,
`delay * 1.5` is exact in floating point and its floor is `delay * 3 / 2`
rounded down. -/
def nextLongRequestDelay (delay : ℕ) : ℕ :=
  min MAX_LONG_REQUEST_DELAY_MS (delay * 3 / 2)

/-- `AgentConnector._long_request_loop`: first increases the delay (so the
multiplier is applied before the very first sleep), sleeps, polls the status
url, returns the response if its status is not `200 OK`, and otherwise keeps
looping with the increased delay.  Returns the response (`none` when the
script is exhausted), the rest of the script, and the sleeps performed. -/
def longRequestLoop : List HttpResponse → ℕ → Option HttpResponse × List HttpResponse × List ℕ
  | [], delay => (none, [], [nextLongRequestDelay delay])
  | r :: rest, delay =>
    let delay' := nextLongRequestDelay delay
    if r.status = 200 then
      let (res, rem, sleeps) := longRequestLoop rest delay'
      (res, rem, delay' :: sleeps)
    else (some r, rest, [delay'])

/-- `AgentConnector._long_request_check_status`: `200` or no `Location`
header returns the response; `202 Accepted` enters `_long_request_loop` with
the default `LONG_REQUEST_DELAY_MS` delay and re-examines the loop's result;
`201 Created` issues a `DELETE` to the location (one more scripted request)
and returns its response; anything else raises (modelled `none`).  The fuel
bounds the `202` recursion; `script.length + 1` always suffices since each
loop consumes at least one scripted response. -/
def longRequestCheckStatus :
    ℕ → HttpResponse → List HttpResponse → Option HttpResponse × List ℕ
  | 0, _, _ => (none, [])
  | fuel + 1, response, script =>
    if response.status = 200 ∨ ¬ response.hasLocation then (some response, [])
    else if response.status = 202 then
      match longRequestLoop script LONG_REQUEST_DELAY_MS with
      | (none, _, sleeps) => (none, sleeps)
      | (some r2, rem, sleeps) =>
        let (res, sleeps2) := longRequestCheckStatus fuel r2 rem
        (res, sleeps ++ sleeps2)
    else if response.status = 201 then
      match script with
      | d :: _ => (some d, [])
      | [] => (none, [])
    else (none, [])

/-- `AgentConnector.long_request`: performs the initial request (the first
scripted response) and hands it to `_long_request_check_status`. -/
def longRequest (initial : HttpResponse) (script : List HttpResponse) :
    Option HttpResponse × List ℕ :=
  longRequestCheckStatus (script.length + 1) initial script

/-! ## Claim C2: long-poll delays -/

/-- The scripted `202, 202, 202, 200` exchange of the claim: the initial
response is `202 Accepted` with a `Location` header, and the three polls are
answered `202`, `202`, `200`, all with `Location` headers. -/
def c2Initial : HttpResponse := ⟨202, true, "pending0"⟩

/-- The responses the server scripts for the polls in claim C2. -/
def c2Script : List HttpResponse :=
  [⟨202, true, "pending1"⟩, ⟨202, true, "pending2"⟩, ⟨200, true, "finished"⟩]

/-- C2 (counterexample): on the scripted `[202, 202, 202, 200]` exchange the
client does not sleep `2000, 3000, 4500` ms and does not return the `200`
body: the delay multiplier is applied before the first sleep and the delay is
reset to 2000 on every `202`, so the three `202`s are each preceded by a
3000 ms sleep; the `200` poll response does not end the polling (the loop
returns only on non-`200` responses), so the client sleeps another 4500 ms
and polls past the end of the script. -/
theorem long_request_c2_script_refutes :
    longRequest c2Initial c2Script ≠
      (some ⟨200, true, "finished"⟩, [2000, 3000, 4500]) := by
  decide

/-- C2 (amended): on the scripted `[202, 202, 202, 200]` exchange the client
sleeps `3000, 3000, 3000, 4500` ms (a 3000 ms sleep before each of the three
`202` polls and before the `200` poll, then, because a `200` status makes
`_long_request_loop` continue rather than stop, a 4500 ms sleep before a
fifth poll) and the fifth poll exhausts the script, so the `200` body is
never returned. -/
theorem long_request_c2_script_behavior :
    longRequest c2Initial c2Script = (none, [3000, 3000, 3000, 4500]) := by
  decide

/-! ## `applitools/utils/_image_utils.py`: `PngImage`

An image is its width, height, pixel size (bytes per pixel) and the pixel
byte matrix (one list of bytes per row).  Python list slices `row[a:b]` are
total (they clamp); they are modelled with `drop`/`take`.  Indexing
`pixel_bytes[i]` is modelled with `getD` (the modelled callers only index in
range; out of range Python would raise `IndexError`). -/

structure PngImage where
  width : ℤ
  height : ℤ
  pixel_size : ℤ
  pixel_bytes : List (List ℕ)
  deriving DecidableEq

/-- `PngImage.get_subimage`: crops `region` out of the image (the source
raises `EyesError` on an empty region; the modelled caller checks emptiness
first).  Row `y` of the result is bytes
`[region.left * pixel_size, (region.left + region.width) * pixel_size)` of
row `region.top + y` of the original. -/
def PngImage.get_subimage (img : PngImage) (region : Region) : PngImage :=
  let xStart := region.left * img.pixel_size
  let xEnd := xStart + region.width * img.pixel_size
  let resultPixels := (List.range region.height.toNat).map fun yOffset =>
    ((img.pixel_bytes.getD (region.top.toNat + yOffset) []).take xEnd.toNat).drop xStart.toNat
  { width := region.width, height := region.height,
    pixel_size := img.pixel_size, pixel_bytes := resultPixels }

/-- `PngImage.paste`: overwrites the byte range starting at
`left * pixel_size` of each target row with the given rows, appending rows
that fall past the current height, then updates the size
(`max(width, paste_right)` by the new row count). -/
def PngImage.paste (img : PngImage) (left top : ℤ) (pixel_bytes_to_paste : List (List ℕ)) :
    PngImage :=
  let xStart := left * img.pixel_size
  let pasteLen := (pixel_bytes_to_paste.headD []).length
  let step := fun (acc : List (List ℕ) × ℤ) (row : List ℕ) =>
    let yCurrent := acc.2
    let pb := acc.1
    let pb := if yCurrent < img.height then
        pb.set yCurrent.toNat
          (((pb.getD yCurrent.toNat []).take xStart.toNat) ++ row ++
            ((pb.getD yCurrent.toNat []).drop (xStart.toNat + pasteLen)))
      else pb ++ [row]
    (pb, yCurrent + 1)
  let pb := (pixel_bytes_to_paste.foldl step (img.pixel_bytes, top)).1
  let pasteRight := Int.fdiv (xStart + pasteLen) img.pixel_size
  { width := max img.width pasteRight, height := pb.length,
    pixel_size := img.pixel_size, pixel_bytes := pb }

/-! ## `applitools/_webdriver.py`: `EyesScreenshot`

The screenshot object records, besides the image, the driver data read at
construction time: the frame chain, the current frame's size, the scroll
position, whether this is a viewport screenshot, the frame location in the
screenshot, and the intersection of the frame with the screenshot bounds. -/

structure EyesScreenshotState where
  screenshot : PngImage
  frame_chain : List EyesFrame
  frame_size : ℤ × ℤ
  scroll_position : ℤ × ℤ
  is_viewport_screenshot : Bool
  frame_location_in_screenshot : ℤ × ℤ
  frame_screenshot_intersect : Region
  deriving DecidableEq

/-- The driver data `EyesScreenshot.__init__` reads:
`get_frame_chain()`, `get_current_position()`, `get_entire_page_size()`
and `get_default_content_viewport_size()`. -/
structure DriverSnapshot where
  frames : List EyesFrame
  scroll : ℤ × ℤ
  entire_page_size : ℤ × ℤ
  viewport_size : ℤ × ℤ
  deriving DecidableEq

/-- `EyesScreenshot.calc_frame_location_in_screenshot`: starts from the first
frame's location (minus the default content's scroll for viewport
screenshots), then adds `location - parent_scroll_position` for every inner
frame. -/
def calc_frame_location_in_screenshot (frame_chain : List EyesFrame)
    (is_viewport_screenshot : Bool) : ℤ × ℤ :=
  let first := frame_chain.headD ⟨0, (0, 0), (0, 0), 0, (0, 0)⟩
  let start :=
    if is_viewport_screenshot then
      (first.location.1 - first.parent_scroll_position.1,
        first.location.2 - first.parent_scroll_position.2)
    else first.location
  (frame_chain.drop 1).foldl
    (fun acc frame =>
      (acc.1 + frame.location.1 - frame.parent_scroll_position.1,
        acc.2 + frame.location.2 - frame.parent_scroll_position.2))
    start

/-- `EyesScreenshot.__init__` for an already-decoded image.  When
`is_viewport_screenshot` is not given it is derived by comparing the image to
the viewport size; when `frame_location_in_screenshot` is not given it is
computed from the frame chain (or from the scroll position for the default
content).  `_frame_screenshot_intersect` is the frame box intersected with
the screenshot bounds. -/
def mkEyesScreenshot (d : DriverSnapshot) (img : PngImage)
    (is_viewport_screenshot : Option Bool)
    (frame_location_in_screenshot : Option (ℤ × ℤ)) : EyesScreenshotState :=
  let frameSize :=
    match d.frames.getLast? with
    | some f => f.size
    | none => d.entire_page_size
  let isViewport :=
    match is_viewport_screenshot with
    | some b => b
    | none =>
      decide (img.width ≤ d.viewport_size.1) && decide (img.height ≤ d.viewport_size.2)
  let frameLocation :=
    match frame_location_in_screenshot with
    | some p => p
    | none =>
      if d.frames.isEmpty then
        if isViewport then (-d.scroll.1, -d.scroll.2) else (0, 0)
      else calc_frame_location_in_screenshot d.frames isViewport
  { screenshot := img,
    frame_chain := d.frames,
    frame_size := frameSize,
    scroll_position := d.scroll,
    is_viewport_screenshot := isViewport,
    frame_location_in_screenshot := frameLocation,
    frame_screenshot_intersect :=
      Region.intersect ⟨frameLocation.1, frameLocation.2, frameSize.1, frameSize.2⟩
        ⟨0, 0, img.width, img.height⟩ }

/-- `EyesScreenshot.get_location_relative_to_frame_viewport`: subtracts the
scroll position when inside a frame or for viewport screenshots. -/
def EyesScreenshotState.get_location_relative_to_frame_viewport
    (s : EyesScreenshotState) (location : ℤ × ℤ) : ℤ × ℤ :=
  if ¬ s.frame_chain.isEmpty ∨ s.is_viewport_screenshot then
    (location.1 - s.scroll_position.1, location.2 - s.scroll_position.2)
  else location

/-- `EyesScreenshot.get_element_region_in_frame_viewport`: clips a negative
`x`/`y` by reducing the width/height by the overflow and clamping the
coordinate to 0; raises `OutOfBoundsError` (modelled `none`) when the
resulting width or height is not positive. -/
def EyesScreenshotState.get_element_region_in_frame_viewport
    (s : EyesScreenshotState) (location size : ℤ × ℤ) : Option Region :=
  let relative := s.get_location_relative_to_frame_viewport location
  let x := relative.1
  let y := relative.2
  let width := if x < 0 then size.1 - (-x) else size.1
  let x := if x < 0 then 0 else x
  let height := if y < 0 then size.2 - (-y) else size.2
  let y := if y < 0 then 0 else y
  if width ≤ 0 ∨ height ≤ 0 then none
  else some ⟨x, y, width, height⟩

/-- `EyesScreenshot.get_intersected_region`: offsets the region by the frame
location and intersects it with the frame/screenshot intersection. -/
def EyesScreenshotState.get_intersected_region (s : EyesScreenshotState)
    (region : Region) : Region :=
  Region.intersect
    ⟨region.left + s.frame_location_in_screenshot.1,
      region.top + s.frame_location_in_screenshot.2, region.width, region.height⟩
    s.frame_screenshot_intersect

/-- `EyesScreenshot.get_sub_screenshot_by_region`: crops the intersected
region (failing with `OutOfBoundsError`, modelled `none`, when it is empty)
and builds a new screenshot whose frame location is
`Point(-region.left, -region.top)`.  `d` is the driver data the new
`EyesScreenshot.__init__` reads. -/
def EyesScreenshotState.get_sub_screenshot_by_region (s : EyesScreenshotState)
    (d : DriverSnapshot) (region : Region) : Option EyesScreenshotState :=
  let subScreenshotRegion := s.get_intersected_region region
  if subScreenshotRegion.is_empty then none
  else
    let subScreenshotFrameLocation := (-region.left, -region.top)
    let screenshot := s.screenshot.get_subimage subScreenshotRegion
    some (mkEyesScreenshot d screenshot (some s.is_viewport_screenshot)
      (some subScreenshotFrameLocation))

/-! ## Claim C4: frame location of a sub-screenshot -/

/-- C4: whenever `get_sub_screenshot_by_region` succeeds, the returned
sub-screenshot's frame-location-in-screenshot is `(-region.left,
-region.top)` — the constructor stores the synthetic frame location it is
handed, and `get_sub_screenshot_by_region` hands it exactly that point. -/
theorem sub_screenshot_frame_location (s : EyesScreenshotState) (d : DriverSnapshot)
    (region : Region) (s' : EyesScreenshotState)
    (h : s.get_sub_screenshot_by_region d region = some s') :
    s'.frame_location_in_screenshot = (-region.left, -region.top) := by
  unfold EyesScreenshotState.get_sub_screenshot_by_region at h
  by_cases he : (s.get_intersected_region region).is_empty = true
  · rw [if_pos he] at h
    exact absurd h (by simp)
  · rw [if_neg he] at h
    have := Option.some.inj h
    rw [← this]
    rfl

/-- A concrete 30 × 30 screenshot fixture for the C4 witness. -/
def c4Image : PngImage := ⟨30, 30, 1, []⟩

/-- The driver data for the C4 witness: default content, unscrolled, page and
viewport both 30 × 30. -/
def c4Driver : DriverSnapshot := ⟨[], (0, 0), (30, 30), (30, 30)⟩

/-- The screenshot object of the C4 witness. -/
def c4Screenshot : EyesScreenshotState := mkEyesScreenshot c4Driver c4Image none none

/-- The sub-screenshot the C4 witness extracts for `Region(5, 5, 10, 10)`. -/
def c4Sub : EyesScreenshotState :=
  (c4Screenshot.get_sub_screenshot_by_region c4Driver ⟨5, 5, 10, 10⟩).getD c4Screenshot

/-- C4 (witness): the theorem applied to the concrete fixture. -/
theorem sub_screenshot_frame_location_witness :
    c4Sub.frame_location_in_screenshot = (-5, -5) :=
  sub_screenshot_frame_location c4Screenshot c4Driver ⟨5, 5, 10, 10⟩ c4Sub (by decide)

/-! ## Claim C6: clipping in `get_element_region_in_frame_viewport` -/

/-- The claim's clipping rule for one axis: when the adjusted coordinate is
negative the extent is reduced by the overflow amount, otherwise kept. -/
def clippedExtent (coord extent : ℤ) : ℤ :=
  if coord < 0 then extent - (-coord) else extent

/-- C6: `get_element_region_in_frame_viewport` fails with an out-of-bounds
error exactly when the clipped width or height is ≤ 0, and otherwise returns
the region with the coordinates clamped to 0 and the clipped extents. -/
theorem element_region_clipping (s : EyesScreenshotState) (location size : ℤ × ℤ) :
    (s.get_element_region_in_frame_viewport location size = none ↔
        clippedExtent (s.get_location_relative_to_frame_viewport location).1 size.1 ≤ 0 ∨
          clippedExtent (s.get_location_relative_to_frame_viewport location).2 size.2 ≤ 0) ∧
      (¬ (clippedExtent (s.get_location_relative_to_frame_viewport location).1 size.1 ≤ 0 ∨
            clippedExtent (s.get_location_relative_to_frame_viewport location).2 size.2 ≤ 0) →
        s.get_element_region_in_frame_viewport location size =
          some ⟨max (s.get_location_relative_to_frame_viewport location).1 0,
            max (s.get_location_relative_to_frame_viewport location).2 0,
            clippedExtent (s.get_location_relative_to_frame_viewport location).1 size.1,
            clippedExtent (s.get_location_relative_to_frame_viewport location).2 size.2⟩) := by
  simp only [EyesScreenshotState.get_element_region_in_frame_viewport, clippedExtent]
  constructor
  · split_ifs with h1 h2 h3 <;>
      first
        | exact iff_of_true rfl (by assumption)
        | exact iff_of_false (by simp) (by assumption)
  · intro h
    rw [if_neg h]
    have hx : (if (s.get_location_relative_to_frame_viewport location).1 < 0 then (0 : ℤ)
        else (s.get_location_relative_to_frame_viewport location).1) =
        max (s.get_location_relative_to_frame_viewport location).1 0 := by
      split_ifs <;> omega
    have hy : (if (s.get_location_relative_to_frame_viewport location).2 < 0 then (0 : ℤ)
        else (s.get_location_relative_to_frame_viewport location).2) =
        max (s.get_location_relative_to_frame_viewport location).2 0 := by
      split_ifs <;> omega
    rw [hx, hy]

/-- A screenshot fixture with no frame chain and no viewport flag, so element
locations undergo no scroll adjustment. -/
def c6Screenshot : EyesScreenshotState :=
  ⟨⟨0, 0, 1, []⟩, [], (0, 0), (3, 7), false, (0, 0), ⟨0, 0, 0, 0⟩⟩

/-- C6 (witness): the theorem applied to an element at `(-10, 5)` of size
`50 × 20` with no scroll adjustment yields `Region(0, 5, 40, 20)` —
left-clipped by 10. -/
theorem element_region_clipping_witness :
    c6Screenshot.get_element_region_in_frame_viewport (-10, 5) (50, 20) =
      some ⟨0, 5, 40, 20⟩ := by
  have h := (element_region_clipping c6Screenshot (-10, 5) (50, 20)).2 (by decide)
  simpa using h

/-! ## `applitools/_webdriver.py`: driver state machine

`EyesWebDriver` (with the scroll-mode position providers) is modelled as a
state: the browser scroll position, the frame chain (`self._frames`), the two
providers' saved-state stacks, and a trace of the externally visible commands
issued (scroll commands, screenshot captures, frame switches).  The browser
page is a pure environment: its total size and the screenshot produced at a
given scroll position (`get_screenshot_as_base64` followed by the base64/PNG
decode round-trip; display rotation 0).  Scrolling is modelled as exact, so
`reset_origin`'s read-back check (`Couldn't scroll to the top/left`) never
fires. -/

inductive DriverEvent where
  | scrolled (x y : ℤ)
  | captured
  | switchedToFrame (reference : ℕ)
  | switchedToDefaultContent
  deriving DecidableEq

structure Page where
  entire_page_size : ℤ × ℤ
  render : ℤ → ℤ → PngImage

structure DriverState where
  scroll : ℤ × ℤ
  frames : List EyesFrame
  origin_states : List (ℤ × ℤ)
  position_states : List (ℤ × ℤ)
  events : List DriverEvent

namespace DriverState

/-- `ScrollPositionProvider.set_position`: issues a `window.scrollTo`
command. -/
def set_position (st : DriverState) (p : ℤ × ℤ) : DriverState :=
  { st with scroll := p, events := st.events ++ [.scrolled p.1 p.2] }

/-- `EyesWebDriver.reset_origin`: `_origin_position_provider.push_state()`
(records the current position) then `set_position(Point(0, 0))`. -/
def reset_origin (st : DriverState) : DriverState :=
  let st := { st with origin_states := st.scroll :: st.origin_states }
  st.set_position (0, 0)

/-- `EyesWebDriver.restore_origin`: `_origin_position_provider.pop_state()`
scrolls back to the last pushed position.  Popping an empty stack would raise
`IndexError` in Python; the modelled runs always push first. -/
def restore_origin (st : DriverState) : DriverState :=
  match st.origin_states with
  | [] => st
  | p :: rest => DriverState.set_position { st with origin_states := rest } p

/-- `EyesWebDriver.save_position`: `_position_provider.push_state()`. -/
def save_position (st : DriverState) : DriverState :=
  { st with position_states := st.scroll :: st.position_states }

/-- `EyesWebDriver.restore_position`: `_position_provider.pop_state()`. -/
def restore_position (st : DriverState) : DriverState :=
  match st.position_states with
  | [] => st
  | p :: rest => DriverState.set_position { st with position_states := rest } p

/-- `EyesWebDriver.scroll_to`: `_position_provider.set_position(point)`. -/
def scroll_to (st : DriverState) (p : ℤ × ℤ) : DriverState :=
  st.set_position p

/-- `_EyesSwitchTo.default_content`: only acts when the frame chain is
non-empty — then `_will_switch_to(None)` clears the chain and the underlying
`switch_to.default_content()` is issued. -/
def default_content (st : DriverState) : DriverState :=
  if st.frames.isEmpty then st
  else { st with frames := [], events := st.events ++ [.switchedToDefaultContent] }

/-- `_EyesSwitchTo.frame`: `_will_switch_to(reference, element)` appends the
frame (with location, size, id and parent scroll read from the DOM — here
supplied as the `EyesFrame` value) and the underlying frame switch is
issued. -/
def switch_to_frame (st : DriverState) (f : EyesFrame) : DriverState :=
  { st with
    frames := st.frames ++ [f],
    events := st.events ++ [.switchedToFrame f.reference] }
/-- `_EyesSwitchTo.frames`: for each frame of the chain the source first
calls `self._driver.set_position(frame.parent_scroll_position)` and then
switches into the frame.  `EyesWebDriver` defines no `set_position` method
(its scroll method is named `scroll_to`), and `create_proxy_interface` copies
only the underlying selenium/appium driver's own public callables, which
include no `set_position` either — so for a non-empty chain the very first
iteration raises `AttributeError` (modelled `none`); only the empty chain
completes, doing nothing. -/
def switch_to_frames (st : DriverState) (chain : List EyesFrame) : Option DriverState :=
  match chain with
  | [] => some st
  | _ :: _ => none

/-- `_EyesSwitchTo.parent_frame`: only acts when the frame chain is
non-empty — pops the chain copy, `_will_switch_to(PARENT_FRAME)` pops the
driver chain, then switches to default content and re-enters the popped
chain (which, for a chain that had at least two frames, hits the missing
`set_position` and raises). -/
def parent_frame (st : DriverState) : Option DriverState :=
  if st.frames.isEmpty then some st
  else
    let popped := st.frames.dropLast
    let st := { st with frames := st.frames.dropLast }
    let st := st.default_content
    st.switch_to_frames popped

end DriverState

/-- `EyesWebDriver.get_screenshot_as_base64` + PNG decode: renders the page
at the current scroll position and records the capture. -/
def capture (page : Page) (st : DriverState) : PngImage × DriverState :=
  (page.render st.scroll.1 st.scroll.2, { st with events := st.events ++ [.captured] })

/-- `EyesWebDriver._MAX_SCROLL_BAR_SIZE`. -/
def MAX_SCROLL_BAR_SIZE : ℤ := 50

/-- `EyesWebDriver._MIN_SCREENSHOT_PART_HEIGHT`. -/
def MIN_SCREENSHOT_PART_HEIGHT : ℤ := 10

/-- `EyesWebDriver.get_full_page_screenshot` (the waiting between
screenshots has no observable effect in the model and is omitted):
remembers the frame chain, moves to default content, scrolls to the origin,
captures once at `(0, 0)`; if that capture already covers the entire page it
restores the state and returns the capture, otherwise it tiles the page with
`get_sub_regions`, scrolls to and captures every part other than `(0, 0)`,
pasting each at the scroll position actually reached, and restores.  Both
exits restore the original frame chain through `switch_to.frames`, which
raises (`none`) whenever that chain is non-empty. -/
def getFullPageScreenshot (page : Page) (st : DriverState) :
    Option (PngImage × DriverState) :=
  let originalFrame := st.frames
  let st := st.default_content
  let st := st.reset_origin
  let entirePageSize := page.entire_page_size
  let (screenshot, st) := capture page st
  if entirePageSize.1 ≤ screenshot.width ∧ entirePageSize.2 ≤ screenshot.height then
    let st := st.restore_origin
    match st.switch_to_frames originalFrame with
    | none => none
    | some st => some (screenshot, st)
  else
    let partWidth := screenshot.width
    let partHeight := max (screenshot.height - MAX_SCROLL_BAR_SIZE) MIN_SCREENSHOT_PART_HEIGHT
    let entirePage : Region := ⟨0, 0, entirePageSize.1, entirePageSize.2⟩
    let screenshotParts := entirePage.get_sub_regions partWidth partHeight
    let st := st.save_position
    let stitched := screenshotParts.foldl
      (fun (acc : PngImage × DriverState) (part : Region) =>
        if part.left = 0 ∧ part.top = 0 then acc
        else
          let st := acc.2.scroll_to (part.left, part.top)
          let pos := st.scroll
          let (partImage, st) := capture page st
          (acc.1.paste pos.1 pos.2 partImage.pixel_bytes, st))
      (screenshot, st)
    let st := stitched.2.restore_position
    let st := st.restore_origin
    match st.switch_to_frames originalFrame with
    | none => none
    | some st => some (stitched.1, st)

/-! ## Claim C10: `parent_frame` / `default_content` on an empty chain -/

/-- C10: with an empty frame chain, `switch_to.default_content()` and
`switch_to.parent_frame()` leave the driver state completely unchanged and
raise nothing — no scroll or switch command is issued (the event trace is
untouched), the chain stays empty, and the guarded bodies (including the
`pop()` and the broken `set_position` re-entry) are never executed. -/
theorem switch_to_noop_on_empty_chain (st : DriverState) (h : st.frames = []) :
    st.default_content = st ∧ st.parent_frame = some st := by
  constructor <;> simp [DriverState.default_content, DriverState.parent_frame, h]

/-- C10 (witness): the theorem applied to a concrete state with an empty
chain. -/
theorem switch_to_noop_on_empty_chain_witness :
    DriverState.default_content ⟨(4, 9), [], [(1, 1)], [], []⟩ = ⟨(4, 9), [], [(1, 1)], [], []⟩ ∧
      DriverState.parent_frame ⟨(4, 9), [], [(1, 1)], [], []⟩ =
        some ⟨(4, 9), [], [(1, 1)], [], []⟩ :=
  switch_to_noop_on_empty_chain ⟨(4, 9), [], [(1, 1)], [], []⟩ rfl

/-! ## Claim C3: short-circuit of `get_full_page_screenshot` -/

/-- A 10 × 10 page whose screenshot at any scroll position is a single
10 × 10 image, so the `(0, 0)` capture always covers the page. -/
def c3Page : Page := ⟨(10, 10), fun _ _ => ⟨10, 10, 1, [[7]]⟩⟩

/-- The driver state of the C3 witness: default content, scrolled to
`(2, 3)`, empty stacks and trace. -/
def c3State : DriverState := ⟨(2, 3), [], [], [], []⟩

/-- C3 (counterexample): the claim fails when the driver is inside a frame.
With a non-empty original frame chain the short-circuit's state restoration
calls `switch_to.frames`, whose first step `self._driver.set_position(...)`
names a method `EyesWebDriver` does not have, so the call raises
`AttributeError` and no screenshot is returned — even though the `(0, 0)`
capture covers the entire page. -/
theorem full_page_screenshot_raises_with_frames :
    (c3Page.entire_page_size.1 ≤ (c3Page.render 0 0).width ∧
      c3Page.entire_page_size.2 ≤ (c3Page.render 0 0).height) ∧
      getFullPageScreenshot c3Page ⟨(2, 3), [⟨1, (0, 0), (5, 5), 4, (0, 0)⟩], [], [], []⟩ =
        none :=
  ⟨by decide, rfl⟩

/-- C3 (amended): when the driver is in the default content (empty frame
chain) and the screenshot captured at `(0, 0)` covers the entire page,
`get_full_page_screenshot` returns exactly that single image, bit-for-bit
(the image value is handed back untouched, no `paste` is applied), and the
whole run issues only the scroll to the origin, the single capture, and the
restoring scroll back to the original position — exactly one capture and no
tiling pass, with every other component of the driver state restored. -/
theorem full_page_screenshot_short_circuit (page : Page) (st : DriverState)
    (hframes : st.frames = [])
    (h : page.entire_page_size.1 ≤ (page.render 0 0).width ∧
      page.entire_page_size.2 ≤ (page.render 0 0).height) :
    getFullPageScreenshot page st =
      some (page.render 0 0,
        { st with
          events := st.events ++
            [DriverEvent.scrolled 0 0, DriverEvent.captured,
              DriverEvent.scrolled st.scroll.1 st.scroll.2] }) := by
  simp [getFullPageScreenshot, DriverState.default_content, hframes, DriverState.reset_origin,
    DriverState.set_position, capture, DriverState.restore_origin,
    DriverState.switch_to_frames, h.1, h.2]

/-- C3 (witness): the amended theorem applied to the concrete page and
state. -/
theorem full_page_screenshot_short_circuit_witness :
    getFullPageScreenshot c3Page c3State =
      some (c3Page.render 0 0,
        { c3State with
          events := c3State.events ++
            [DriverEvent.scrolled 0 0, DriverEvent.captured,
              DriverEvent.scrolled c3State.scroll.1 c3State.scroll.2] }) :=
  full_page_screenshot_short_circuit c3Page c3State rfl ⟨by decide, by decide⟩
